import Mathlib

/-!
Shallow embedding of the two Vue components of this repository:
`ScheduledTaskForm.vue` (scheduled-task form: submission, id-list filtering,
toggling, defaults, deep-clone framing) and the CodeMirror editor wrapper
(Prettier formatting, model watcher).  Effects (store persistence calls,
`message.error`, `handleCancel`, the `loading` ref) are made explicit as
fields of result records; external collaborators (`ValidateCron`, Prettier,
the stores) are parameters.
-/

namespace GUIForSingBox

/-- The `ScheduledTasksType` enum of `@/enums/app`. -/
inductive ScheduledTasksType where
  | RunScript
  | UpdateSubscription
  | UpdateRuleset
  | UpdatePlugin
  | RunPlugin
deriving DecidableEq, Repr

/-- The `ScheduledTask` record of `@/types/app`, as used by the form. -/
structure ScheduledTask where
  id : String
  name : String
  type : ScheduledTasksType
  subscriptions : List String
  rulesets : List String
  plugins : List String
  script : String
  cron : String
  notification : Bool
  disabled : Bool
  lastTime : Nat
deriving DecidableEq, Repr

/-- The store collections the form filters against: the ids for which
`getSubscribeById` / `getRulesetById` / `getPluginById` return an entry. -/
structure Stores where
  subscriptions : List String
  rulesets : List String
  plugins : List String
deriving DecidableEq, Repr

/-- A persistence call made on the scheduled-tasks store:
`addScheduledTask(t)` or `editScheduledTask(id, t)`. -/
inductive PersistCall where
  | add (t : ScheduledTask)
  | edit (id : String) (t : ScheduledTask)
deriving DecidableEq, Repr

/-- The task record carried by a persistence call. -/
def PersistCall.task : PersistCall → ScheduledTask
  | .add t => t
  | .edit _ t => t

/-- The environment of one `handleSubmit` invocation: the outcome of the
external `ValidateCron` bridge call on each cron string (`some err` means the
promise rejects with `err`), the current store collections, the outcome of the
store persistence call, and the `id` prop of the component. -/
structure SubmitEnv where
  cronError : String → Option String
  stores : Stores
  persistError : Option String
  propsId : Option String

/-- The observable outcome of `handleSubmit`: the final value of `task.value`,
the persistence call made (none if validation failed), the strings passed to
`message.error`, whether `handleCancel` was invoked, whether `loading.value`
was ever set to `true`, and the final value of `loading.value`. -/
structure SubmitResult where
  task : ScheduledTask
  persistCall : Option PersistCall
  errors : List String
  cancelled : Bool
  loadingSetTrue : Bool
  loadingFinal : Bool
deriving Repr

/-- The `switch (task.value.type)` block of `handleSubmit`: only the id list
matching the task's type is filtered against the corresponding store
collection; `RunScript` matches no case. -/
def filterTaskIds (stores : Stores) (t : ScheduledTask) : ScheduledTask :=
  match t.type with
  | .UpdateSubscription =>
      { t with subscriptions :=
          t.subscriptions.filter (fun i => stores.subscriptions.contains i) }
  | .UpdateRuleset =>
      { t with rulesets :=
          t.rulesets.filter (fun i => stores.rulesets.contains i) }
  | .UpdatePlugin =>
      { t with plugins :=
          t.plugins.filter (fun i => stores.plugins.contains i) }
  | .RunPlugin =>
      { t with plugins :=
          t.plugins.filter (fun i => stores.plugins.contains i) }
  | .RunScript => t

/-- `handleSubmit` of `ScheduledTaskForm.vue`: validate the cron string via
the bridge (early return with `message.error` on rejection), set `loading`,
filter the type-relevant id list, call `editScheduledTask(props.id, task)`
when the form has an `id` prop and `addScheduledTask(task)` otherwise, invoke
`handleCancel` on success and `message.error` on rejection, and finally reset
`loading`. -/
def handleSubmit (env : SubmitEnv) (t0 : ScheduledTask) : SubmitResult :=
  match env.cronError t0.cron with
  | some err =>
      { task := t0, persistCall := none, errors := [err],
        cancelled := false, loadingSetTrue := false, loadingFinal := false }
  | none =>
      let t := filterTaskIds env.stores t0
      let call :=
        match env.propsId with
        | some pid => PersistCall.edit pid t
        | none => PersistCall.add t
      match env.persistError with
      | some err =>
          { task := t, persistCall := some call, errors := [err],
            cancelled := false, loadingSetTrue := true, loadingFinal := false }
      | none =>
          { task := t, persistCall := some call, errors := [],
            cancelled := true, loadingSetTrue := true, loadingFinal := false }

/-- `handleUse` of `ScheduledTaskForm.vue`: `findIndex` the id in the list,
`splice` its first occurrence out if present, otherwise `push` it. -/
def handleUse (list : List String) (id : String) : List String :=
  match list.findIdx? (fun v => v == id) with
  | some idx => list.eraseIdx idx
  | none => list ++ [id]

/-- JavaScript truthiness of a string: falsy exactly when empty. -/
def jsStringTruthy (s : String) : Bool := !(s == "")

/-- The `disabled` prop of the submit button in `modalSlots.submit`:
`!task.value.name || !task.value.cron`. -/
def submitDisabled (t : ScheduledTask) : Bool :=
  !jsStringTruthy t.name || !jsStringTruthy t.cron

/-- The initial `task` ref of the form, with `sid` the result of
`sampleID()`. -/
def initialTask (sid : String) : ScheduledTask :=
  { id := sid
    name := ""
    type := ScheduledTasksType.RunScript
    subscriptions := []
    rulesets := []
    plugins := []
    script := ""
    cron := ""
    notification := false
    disabled := false
    lastTime := 0 }

/-- `getScheduledTaskById` of the scheduled-tasks store: lookup by id. -/
def getScheduledTaskById (store : List ScheduledTask) (pid : String) :
    Option ScheduledTask :=
  store.find? (fun t => t.id == pid)

/-- A heap of task records: the store's records followed by the form's own
cell, addressed by index.  `formRef` is the cell the form's reactive `task`
ref points at; the store's records live at the indices below it. -/
structure FormSession where
  heap : List ScheduledTask
  formRef : Nat
deriving Repr

/-- Modelled from the spec: `deepClone` (imported from `@/utils`, whose source
is not part of this repository slice) produces an independent deep copy of
its argument, modelled as allocating a fresh heap cell holding the same
value.  `openForm` is the component-setup code: when the `id` prop resolves
to a stored record, the form's cell is initialised with a deep clone of it;
otherwise it keeps the freshly constructed default task. -/
def openForm (store : List ScheduledTask) (propsId : Option String)
    (fresh : ScheduledTask) : FormSession :=
  match propsId with
  | none => { heap := store ++ [fresh], formRef := store.length }
  | some pid =>
      match getScheduledTaskById store pid with
      | some s => { heap := store ++ [s], formRef := store.length }
      | none => { heap := store ++ [fresh], formRef := store.length }

/-- One mutation of the form's task state (a field edit or an id-list
toggle): it writes through the form's reference only. -/
def mutateForm (s : FormSession) (f : ScheduledTask → ScheduledTask) :
    FormSession :=
  { s with heap := s.heap.set s.formRef (f (s.heap.getD s.formRef (initialTask ""))) }

/-- A sequence of form-state mutations. -/
def mutateForms (s : FormSession) (fs : List (ScheduledTask → ScheduledTask)) :
    FormSession :=
  fs.foldl mutateForm s

/-- The editor view's document and cursor (primary selection head). -/
structure EditorState where
  doc : String
  cursor : Nat
deriving DecidableEq, Repr

/-- The observable outcome of `formatDoc`: the editor state afterwards,
whether a change was dispatched, and the strings passed to `message.error`. -/
structure FormatOutcome where
  state : EditorState
  dispatched : Bool
  errors : List String
deriving DecidableEq, Repr

/-- `formatDoc` of the editor component, with Prettier's
`formatWithCursor` as the parameter `fmt` (given the content and cursor it
either throws or returns the formatted text and the computed cursor offset):
on a throw the error message is surfaced and nothing is dispatched; on
success a full-document replacement with the new cursor is dispatched only
when the formatted text differs from the current content. -/
def formatDoc (fmt : String → Nat → Except String (String × Nat))
    (st : EditorState) : FormatOutcome :=
  match fmt st.doc st.cursor with
  | .error e => { state := st, dispatched := false, errors := [e] }
  | .ok (formatted, cursorOffset) =>
      if st.doc == formatted then
        { state := st, dispatched := false, errors := [] }
      else
        { state := { doc := formatted, cursor := cursorOffset },
          dispatched := true, errors := [] }

/-- The `watch(model, ...)` callback of the editor component: `viewDoc` is
`none` when neither `editorView` nor `mergeView.b` exists yet, `some doc`
otherwise.  Returns the document afterwards and whether a replacement was
dispatched: a dispatch happens only when the incoming model value differs
from the view's current document. -/
def modelWatcher (viewDoc : Option String) (content : String) :
    Option String × Bool :=
  match viewDoc with
  | none => (none, false)
  | some doc => if content == doc then (some doc, false) else (some content, true)

-- Concrete instances for the C1 counterexample.

/-- Stores with no existing subscriptions, rulesets or plugins. -/
def emptyStores : Stores := { subscriptions := [], rulesets := [], plugins := [] }

/-- Environment where cron validation and persistence both succeed and the
form has no `id` prop. -/
def cexEnv : SubmitEnv :=
  { cronError := fun _ => none, stores := emptyStores,
    persistError := none, propsId := none }

/-- A `RunScript` task carrying a subscription id that exists in no store. -/
def cexTask : ScheduledTask :=
  { initialTask "t1" with subscriptions := ["s1"] }

/-- The same task with type `UpdateSubscription`, for which the filter
applies. -/
def cexTaskSub : ScheduledTask :=
  { cexTask with type := ScheduledTasksType.UpdateSubscription }

-- Theorems.

theorem handleUse_cons (a : String) (l : List String) (id : String) :
    handleUse (a :: l) id = if a == id then l else a :: handleUse l id := by
  by_cases h : a == id
  · simp [handleUse, List.findIdx?_cons, h]
  · rw [if_neg (by simpa using h)]
    simp only [handleUse, List.findIdx?_cons, h]
    cases hfi : l.findIdx? (fun v => v == id) <;> simp [hfi, List.eraseIdx]

theorem handleUse_characterisation (l : List String) (id : String) :
    handleUse l id = if id ∈ l then l.erase id else l ++ [id] := by
  induction l with
  | nil => simp [handleUse]
  | cons a l ih =>
      rw [handleUse_cons]
      by_cases h : a = id
      · subst h
        simp [List.erase_cons_head]
      · have hb : (a == id) = false := by simpa using h
        rw [if_neg (by simpa using h)]
        by_cases hm : id ∈ l
        · rw [ih, if_pos hm, if_pos (by simp [hm]),
            List.erase_cons_tail (by simpa using h)]
        · rw [ih, if_neg hm, if_neg (by simp [hm, Ne.symm h])]
          simp

/-- Claim C9: `handleUse` toggles membership: if the id occurs in the list
its first occurrence is removed, otherwise the id is appended at the end; on
a duplicate-free list applying it twice with the same id restores the list's
membership, and elements other than the id are unaffected by one
application. -/
theorem handleUse_toggle (l : List String) (id : String) :
    (id ∈ l → handleUse l id = l.erase id) ∧
    (id ∉ l → handleUse l id = l ++ [id]) ∧
    (l.Nodup → ∀ x, x ∈ handleUse (handleUse l id) id ↔ x ∈ l) ∧
    (∀ x, x ≠ id → (x ∈ handleUse l id ↔ x ∈ l)) := by
  refine ⟨fun h => by rw [handleUse_characterisation, if_pos h],
          fun h => by rw [handleUse_characterisation, if_neg h], ?_, ?_⟩
  · intro hnd x
    by_cases hm : id ∈ l
    · have h1 : handleUse l id = l.erase id := by
        rw [handleUse_characterisation, if_pos hm]
      have h2 : id ∉ l.erase id := by
        intro hc
        exact ((List.Nodup.mem_erase_iff hnd).mp hc).1 rfl
      rw [h1, handleUse_characterisation, if_neg h2]
      by_cases hx : x = id
      · subst hx; simp [hm]
      · simp [List.mem_erase_of_ne hx, hx]
    · have h1 : handleUse l id = l ++ [id] := by
        rw [handleUse_characterisation, if_neg hm]
      rw [h1, handleUse_characterisation, if_pos (by simp),
        List.erase_append_right _ hm]
      simp
  · intro x hx
    rw [handleUse_characterisation]
    by_cases hm : id ∈ l
    · rw [if_pos hm]; exact List.mem_erase_of_ne hx
    · rw [if_neg hm]; simp [hx]

/-- Witness for C9 at a concrete list and id. -/
theorem handleUse_toggle_witness :
    handleUse ["a", "b"] "b" = ["a"] := by
  have h := (handleUse_toggle ["a", "b"] "b").1 (by simp)
  simpa using h

/-- Claim C2: when the external cron validation rejects, `handleSubmit`
returns without making any persistence call, leaves the task record
unchanged (no id filtering), never touches the loading flag, does not close
the form, and surfaces the validation error via `message.error`. -/
theorem handleSubmit_cron_rejects (env : SubmitEnv) (t0 : ScheduledTask)
    (err : String) (h : env.cronError t0.cron = some err) :
    (handleSubmit env t0).persistCall = none ∧
    (handleSubmit env t0).task = t0 ∧
    (handleSubmit env t0).errors = [err] ∧
    (handleSubmit env t0).cancelled = false ∧
    (handleSubmit env t0).loadingSetTrue = false := by
  simp [handleSubmit, h]

/-- Witness for C2 at a concrete environment and task. -/
theorem handleSubmit_cron_rejects_witness :
    (handleSubmit { cexEnv with cronError := fun _ => some "bad cron" }
      cexTask).persistCall = none := by
  exact (handleSubmit_cron_rejects
    { cexEnv with cronError := fun _ => some "bad cron" } cexTask "bad cron" rfl).1

/-- Claim C3: when the persistence call rejects, the error is surfaced via
`message.error`, `handleCancel` is not invoked (the form stays open), and the
loading flag is `false` when `handleSubmit` completes. -/
theorem handleSubmit_persist_rejects (env : SubmitEnv) (t0 : ScheduledTask)
    (err : String) (hc : env.cronError t0.cron = none)
    (hp : env.persistError = some err) :
    (handleSubmit env t0).errors = [err] ∧
    (handleSubmit env t0).cancelled = false ∧
    (handleSubmit env t0).loadingFinal = false := by
  cases h : env.propsId <;> simp [handleSubmit, hc, hp, h]

/-- Witness for C3 at a concrete environment and task. -/
theorem handleSubmit_persist_rejects_witness :
    (handleSubmit { cexEnv with persistError := some "disk full" }
      cexTask).cancelled = false := by
  exact (handleSubmit_persist_rejects
    { cexEnv with persistError := some "disk full" } cexTask "disk full"
    rfl rfl).2.1

/-- Claim C4: on a successful submission the task is persisted by
`editScheduledTask(props.id, task)` when the form was opened with an `id`
prop and by `addScheduledTask(task)` otherwise; exactly one persistence call
is made (the `persistCall` field holds at most one call and it is `some`
here), and `handleCancel` is invoked afterwards. -/
theorem handleSubmit_success_routes (env : SubmitEnv) (t0 : ScheduledTask)
    (hc : env.cronError t0.cron = none) (hp : env.persistError = none) :
    (∀ pid, env.propsId = some pid →
        (handleSubmit env t0).persistCall =
          some (PersistCall.edit pid (filterTaskIds env.stores t0))) ∧
    (env.propsId = none →
        (handleSubmit env t0).persistCall =
          some (PersistCall.add (filterTaskIds env.stores t0))) ∧
    (handleSubmit env t0).cancelled = true := by
  refine ⟨?_, ?_, ?_⟩
  · intro pid hpid; simp [handleSubmit, hc, hp, hpid]
  · intro hpid; simp [handleSubmit, hc, hp, hpid]
  · cases h : env.propsId <;> simp [handleSubmit, hc, hp, h]

/-- Witness for C4 at a concrete environment (edit route). -/
theorem handleSubmit_success_routes_witness :
    (handleSubmit { cexEnv with propsId := some "p7" } cexTask).persistCall =
      some (PersistCall.edit "p7" (filterTaskIds emptyStores cexTask)) := by
  exact (handleSubmit_success_routes { cexEnv with propsId := some "p7" }
    cexTask rfl rfl).1 "p7" rfl

/-- Claim C5: the submit control is disabled exactly when the task's name or
cron string is empty, hence enabled (and `handleSubmit` reachable) exactly
when both are non-empty. -/
theorem submitDisabled_iff (t : ScheduledTask) :
    (submitDisabled t = true ↔ (t.name = "" ∨ t.cron = "")) ∧
    (submitDisabled t = false ↔ (t.name ≠ "" ∧ t.cron ≠ "")) := by
  constructor
  · simp [submitDisabled, jsStringTruthy]
  · simp [submitDisabled, jsStringTruthy]

/-- Witness for C5 at a concrete task. -/
theorem submitDisabled_iff_witness :
    submitDisabled { initialTask "w" with name := "n", cron := "* * * * *" }
      = false := by
  exact (submitDisabled_iff
    { initialTask "w" with name := "n", cron := "* * * * *" }).2.mpr
    (by simp [initialTask])

/-- Claim C6: the initial task record (form opened without an `id` prop) has
the generated id, empty name, type `RunScript`, empty subscription, ruleset
and plugin lists, empty script and cron strings, notification and disabled
false, and last-run timestamp 0. -/
theorem initialTask_defaults (sid : String) :
    (initialTask sid).id = sid ∧
    (initialTask sid).name = "" ∧
    (initialTask sid).type = ScheduledTasksType.RunScript ∧
    (initialTask sid).subscriptions = [] ∧
    (initialTask sid).rulesets = [] ∧
    (initialTask sid).plugins = [] ∧
    (initialTask sid).script = "" ∧
    (initialTask sid).cron = "" ∧
    (initialTask sid).notification = false ∧
    (initialTask sid).disabled = false ∧
    (initialTask sid).lastTime = 0 := by
  simp [initialTask]

theorem handleSubmit_call_task (env : SubmitEnv) (t0 : ScheduledTask)
    (call : PersistCall)
    (h : (handleSubmit env t0).persistCall = some call) :
    call.task = filterTaskIds env.stores t0 := by
  cases hc : env.cronError t0.cron with
  | some err => simp [handleSubmit, hc] at h
  | none =>
      cases hpid : env.propsId <;> cases hp : env.persistError <;>
        simp [handleSubmit, hc, hpid, hp] at h <;>
          simp [← h, PersistCall.task]

/-- Counterexample to C1 as stated: with no existing subscriptions in the
store, a `RunScript` task carrying the stale subscription id `s1` is
persisted with that id still in its subscriptions list, because the `switch`
only filters the list matching the task's type. -/
theorem handleSubmit_filter_cex :
    ((handleSubmit cexEnv cexTask).persistCall.map
        (fun c => c.task.subscriptions)) = some ["s1"] ∧
    cexEnv.stores.subscriptions = [] := by
  exact ⟨rfl, rfl⟩

/-- Claim C1 (amended): before persistence only the id list matching the
task's type is filtered to ids of currently existing entries (subscriptions
for `UpdateSubscription`, rulesets for `UpdateRuleset`, plugins for
`UpdatePlugin` and `RunPlugin`); the other two lists are persisted
unchanged, and a `RunScript` task is persisted entirely unfiltered. -/
theorem handleSubmit_filters_typed_list (env : SubmitEnv) (t0 : ScheduledTask)
    (call : PersistCall)
    (h : (handleSubmit env t0).persistCall = some call) :
    (t0.type = ScheduledTasksType.UpdateSubscription →
        (∀ i ∈ call.task.subscriptions, i ∈ env.stores.subscriptions) ∧
        call.task.rulesets = t0.rulesets ∧ call.task.plugins = t0.plugins) ∧
    (t0.type = ScheduledTasksType.UpdateRuleset →
        (∀ i ∈ call.task.rulesets, i ∈ env.stores.rulesets) ∧
        call.task.subscriptions = t0.subscriptions ∧
        call.task.plugins = t0.plugins) ∧
    ((t0.type = ScheduledTasksType.UpdatePlugin ∨
        t0.type = ScheduledTasksType.RunPlugin) →
        (∀ i ∈ call.task.plugins, i ∈ env.stores.plugins) ∧
        call.task.subscriptions = t0.subscriptions ∧
        call.task.rulesets = t0.rulesets) ∧
    (t0.type = ScheduledTasksType.RunScript → call.task = t0) := by
  have ht := handleSubmit_call_task env t0 call h
  refine ⟨?_, ?_, ?_, ?_⟩
  · intro hty
    rw [ht]
    unfold filterTaskIds
    rw [hty]
    refine ⟨?_, rfl, rfl⟩
    intro i hi
    have := (List.mem_filter.mp hi).2
    simpa using this
  · intro hty
    rw [ht]
    unfold filterTaskIds
    rw [hty]
    refine ⟨?_, rfl, rfl⟩
    intro i hi
    have := (List.mem_filter.mp hi).2
    simpa using this
  · intro hty
    rw [ht]
    unfold filterTaskIds
    rcases hty with hty | hty <;> rw [hty] <;>
      refine ⟨?_, rfl, rfl⟩ <;>
        intro i hi <;>
          simpa using (List.mem_filter.mp hi).2
  · intro hty
    rw [ht]
    unfold filterTaskIds
    rw [hty]

/-- Witness for the amended C1: at the counterexample environment with the
task type switched to `UpdateSubscription`, the stale id `s1` cannot survive
into the persisted subscriptions list. -/
theorem handleSubmit_filters_typed_list_witness :
    "s1" ∉ (PersistCall.add (filterTaskIds cexEnv.stores cexTaskSub)).task.subscriptions := by
  intro hmem
  have h := (handleSubmit_filters_typed_list cexEnv cexTaskSub
    (PersistCall.add (filterTaskIds cexEnv.stores cexTaskSub)) rfl).1 rfl
  have hin := h.1 "s1" hmem
  simp [cexEnv, emptyStores] at hin

/-- Claim C7: if Prettier throws, `formatDoc` leaves the editor document
unchanged, dispatches nothing and surfaces the error via `message.error`; if
Prettier succeeds, a full-document replacement with the computed cursor
offset is dispatched exactly when the formatted text differs from the
current content, and an already formatted document receives no dispatch. -/
theorem formatDoc_spec (fmt : String → Nat → Except String (String × Nat))
    (st : EditorState) :
    (∀ e, fmt st.doc st.cursor = Except.error e →
        formatDoc fmt st =
          { state := st, dispatched := false, errors := [e] }) ∧
    (∀ f c, fmt st.doc st.cursor = Except.ok (f, c) →
        (f = st.doc →
            formatDoc fmt st =
              { state := st, dispatched := false, errors := [] }) ∧
        (f ≠ st.doc →
            formatDoc fmt st =
              { state := { doc := f, cursor := c }, dispatched := true,
                errors := [] })) := by
  refine ⟨?_, ?_⟩
  · intro e he
    simp [formatDoc, he]
  · intro f c hok
    constructor
    · intro hf
      subst hf
      simp [formatDoc, hok]
    · intro hf
      have : (st.doc == f) = false := by
        simp [Ne.symm hf]
      simp [formatDoc, hok, this]

/-- Witness for C7: a formatter that rewrites "a" to "b" with cursor 1. -/
theorem formatDoc_spec_witness :
    formatDoc (fun _ _ => Except.ok ("b", 1)) { doc := "a", cursor := 0 } =
      { state := { doc := "b", cursor := 1 }, dispatched := true,
        errors := [] } := by
  exact ((formatDoc_spec (fun _ _ => Except.ok ("b", 1))
    { doc := "a", cursor := 0 }).2 "b" 1 rfl).2 (by decide)

/-- Claim C10: the model watcher dispatches a replacement exactly when the
incoming model value differs from the view's current document; when they are
equal (as after an editor-originated change propagated through `onChange`)
nothing is dispatched and the document is unchanged, and immediately
re-running the watcher with the same model value after a dispatch does not
dispatch again, so model updates cannot loop.  Without a view nothing
happens. -/
theorem modelWatcher_spec (doc content : String) :
    ((modelWatcher (some doc) content).2 = true ↔ content ≠ doc) ∧
    (content = doc → modelWatcher (some doc) content = (some doc, false)) ∧
    (content ≠ doc → modelWatcher (some doc) content = (some content, true)) ∧
    (modelWatcher (modelWatcher (some doc) content).1 content).2 = false ∧
    modelWatcher none content = (none, false) := by
  by_cases h : content = doc
  · subst h
    simp [modelWatcher]
  · have hb : (content == doc) = false := by simpa using h
    simp [modelWatcher, hb, h]

/-- Witness for C10 at concrete strings. -/
theorem modelWatcher_spec_witness :
    modelWatcher (some "x") "y" = (some "y", true) := by
  exact (modelWatcher_spec "x" "y").2.2.1 (by decide)

theorem set_append_singleton {α : Type} (l : List α) (x v : α) :
    (l ++ [x]).set l.length v = l ++ [v] := by
  induction l with
  | nil => rfl
  | cons a l ih =>
      simp [ih]

theorem getD_append_singleton {α : Type} (l : List α) (x d : α) :
    (l ++ [x]).getD l.length d = x := by
  induction l with
  | nil => rfl
  | cons a l ih =>
      simp [List.getD] at ih ⊢

theorem mutateForms_append_singleton (store : List ScheduledTask)
    (fs : List (ScheduledTask → ScheduledTask)) (x : ScheduledTask) :
    mutateForms { heap := store ++ [x], formRef := store.length } fs =
      { heap := store ++ [fs.foldl (fun a f => f a) x],
        formRef := store.length } := by
  induction fs generalizing x with
  | nil => rfl
  | cons f fs ih =>
      show mutateForms
        (mutateForm { heap := store ++ [x], formRef := store.length } f) fs = _
      rw [mutateForm]
      simp only [getD_append_singleton, set_append_singleton]
      exact ih (f x)

/-- Claim C8: when the form is opened with an `id` prop that resolves to a
stored record, the form's cell starts as a deep clone of that record, and
any sequence of mutations of the form's task state leaves every record held
in the scheduled-tasks store (the first `store.length` heap cells)
unchanged. -/
theorem deepClone_store_frame (store : List ScheduledTask) (pid : String)
    (fresh s : ScheduledTask) (fs : List (ScheduledTask → ScheduledTask))
    (h : getScheduledTaskById store pid = some s) :
    (mutateForms (openForm store (some pid) fresh) fs).heap.take store.length
        = store ∧
    (openForm store (some pid) fresh).heap.getD
        (openForm store (some pid) fresh).formRef fresh = s := by
  have ho : openForm store (some pid) fresh =
      { heap := store ++ [s], formRef := store.length } := by
    simp [openForm, h]
  rw [ho, mutateForms_append_singleton]
  exact ⟨List.take_left store _, getD_append_singleton store s fresh⟩

/-- Witness for C8: a one-record store, a resolving id and one mutation. -/
theorem deepClone_store_frame_witness :
    (mutateForms (openForm [initialTask "a"] (some "a") (initialTask "b"))
        [fun t => { t with name := "changed" }]).heap.take 1
      = [initialTask "a"] := by
  exact (deepClone_store_frame [initialTask "a"] "a" (initialTask "b")
    (initialTask "a") [fun t => { t with name := "changed" }] rfl).1

end GUIForSingBox
